import Mathlib

/-
Verification of the js-validation schema builder (src/src/validation/schema.js),
the uppercase validator factory (src/src/validation/lib/uppercase.js), and the
validation engine around them.  The builder state, its fluent methods and the
compilation step `validateSchema` are embedded directly from schema.js; the
rule catalog (rules.js), the error-message constants (constants.js) and the
single-value validator (validation.js) are not part of the source tree and are
modelled from the specification where needed.
-/

set_option autoImplicit false

namespace JsValidation

/-- Regex patterns used by the rule catalog, as an inductive so that each
rule's test is executable.  `minLen`/`maxLen` carry their bound. -/
inductive RulePattern where
  | digit
  | symbol
  | uppercase
  | lowercase
  | email
  | minLen (n : Nat)
  | maxLen (n : Nat)
deriving DecidableEq, Repr

/-- Modelled from the spec: the email pattern is a "simple local@domain.tld
shape" (rules.js is not in the source tree).  The exact regex does not matter
for any claim; we require a nonempty local part and a domain with a dot. -/
def emailShape (v : String) : Bool :=
  match v.splitOn "@" with
  | [l, d] =>
    match d.splitOn "." with
    | parts => l ≠ "" && parts.length ≥ 2 && parts.all (· ≠ "")
  | _ => false

/-- Modelled from the spec: the symbol pattern tests for the presence of a
special (non-alphanumeric) character (rules.js is not in the source tree);
the repository's rule test expects "$" to match and "a" not to. -/
def isSpecialChar (c : Char) : Bool :=
  !c.isAlphanum

/-- Pattern test: `RulePattern.test p v` is the JS `pattern.test(value)`.
The character-class patterns test presence of one character of the class
(uppercase is /[A-Z]/ as in lib/uppercase.js); the length patterns test
string length against the bound. -/
def RulePattern.test : RulePattern → String → Bool
  | .digit, v => v.data.any (fun c => '0' ≤ c && c ≤ '9')
  | .symbol, v => v.data.any isSpecialChar
  | .uppercase, v => v.data.any (fun c => 'A' ≤ c && c ≤ 'Z')
  | .lowercase, v => v.data.any (fun c => 'a' ≤ c && c ≤ 'z')
  | .email, v => emailShape v
  | .minLen n, v => n ≤ v.length
  | .maxLen n, v => v.length ≤ n

/-- Modelled from the spec: default minimum sentinel `SCHEMA.DEFAULT_MIN`
(constants.js is not in the source tree).  The spec calls a bound valid when
it is "a number ≥ 0 (the catalog's sentinel minimum)", so the sentinel is 0. -/
def DEFAULT_MIN : Nat := 0

/-- Modelled from the spec: default maximum sentinel `SCHEMA.DEFAULT_MAX`
(constants.js is not in the source tree).  The spec only says it is a sentinel
"unset" value; we model it as a large bound. -/
def DEFAULT_MAX : Nat := 1000

/-- Modelled from the spec: default message of `minLength(n)`, "interpolating
n" (rules.js is not in the source tree). -/
def minLenError (n : Nat) : String :=
  "must be at least " ++ toString n ++ " characters long"

/-- Modelled from the spec: default message of `maxLength(n)`, "interpolating
n" (rules.js is not in the source tree). -/
def maxLenError (n : Nat) : String :=
  "must be no more than " ++ toString n ++ " characters long"

/-- Modelled from the spec: default message of `matches(value, propertyName)`,
"interpolating propertyName" (rules.js is not in the source tree). -/
def matchesError (propertyName : String) : String :=
  "must match " ++ propertyName

/-- Modelled from the spec: the fixed default messages of the digit, symbol,
uppercase, lowercase, email and required catalog rules (rules.js is not in
the source tree).  Only their identity matters to the claims. -/
def digitError : String := "must contain a digit"

/-- Modelled from the spec: default symbol-rule message (rules.js missing). -/
def symbolError : String := "must contain a special character"

/-- Modelled from the spec: default uppercase-rule message (rules.js missing). -/
def uppercaseError : String := "must contain an uppercase character"

/-- Modelled from the spec: default lowercase-rule message (rules.js missing). -/
def lowercaseError : String := "must contain a lowercase character"

/-- Modelled from the spec: default email-rule message (rules.js missing). -/
def emailError : String := "must be a valid email address"

/-- Modelled from the spec: default required-rule message `Rules.REQUIRED.error`
(rules.js is not in the source tree).  Nonempty, as any default message. -/
def requiredError : String := "must not be empty"

/-- Modelled from the spec: `ERROR_MESSAGES.INVALID_MIN_OVER_MAX`
(constants.js is not in the source tree). -/
def INVALID_MIN_OVER_MAX : String :=
  "minimum length cannot be greater than maximum length"

/-- Modelled from the spec: `ERROR_MESSAGES.INVALID_MIN_MAX`
(constants.js is not in the source tree). -/
def INVALID_MIN_MAX : String :=
  "length bounds cannot be less than the number of required characters"

/-- A rule entry as stored in the schema's `rules` object.  JS objects may
lack the `value` or `pattern` field (the matches rule is built as
`{ error }` only; `min`/`max` spread a catalog rule carrying no `value`),
so those fields are `Option`; every construction in the code sets `error`. -/
structure Entry where
  value : Option Nat := none
  pattern : Option RulePattern := none
  error : String
deriving DecidableEq, Repr

/-- The rule-kind keys of the schema's `rules` object. -/
inductive RKind where
  | minimum
  | maximum
  | digit
  | symbol
  | uppercase
  | lowercase
  | email
  | matchingProperty
deriving DecidableEq, Repr

instance : Fintype RKind where
  elems := {RKind.minimum, RKind.maximum, RKind.digit, RKind.symbol,
            RKind.uppercase, RKind.lowercase, RKind.email, RKind.matchingProperty}
  complete := by intro k; cases k <;> decide

/-- The `rules` object: an association list from rule kind to entry, in
JS-object insertion order (assignment to a present key updates it in place;
assignment to a fresh key appends). -/
abbrev Rules := List (RKind × Entry)

/-- Reading `rules[k]`: the first entry stored under key `k` (JS object keys
are unique; `none` is JS `undefined`). -/
def getRule (rs : Rules) (k : RKind) : Option Entry :=
  match rs with
  | [] => none
  | (k', e) :: rest => if k' = k then some e else getRule rest k

/-- JS assignment `rules[k] = e`: overwrite in place when the key is present,
append otherwise. -/
def setRule (rs : Rules) (k : RKind) (e : Entry) : Rules :=
  match rs with
  | [] => [(k, e)]
  | (k', e') :: rest =>
    if k' = k then (k, e) :: rest else (k', e') :: setRule rest k e

/-- In-place mutation of the entry under key `k` (field assignments such as
`minimum.value = requiredChars` in validateSchema); a no-op when absent. -/
def modifyRule (rs : Rules) (k : RKind) (f : Entry → Entry) : Rules :=
  rs.map (fun p => if p.1 = k then (p.1, f p.2) else p)

/-- JS truthiness of an optional string: `undefined` and `""` are falsy. -/
def truthy : Option String → Bool
  | none => false
  | some s => s ≠ ""

/-- JS `a > b` on possibly-undefined numbers: any comparison against
`undefined` is `false` (NaN semantics). -/
def jsGT : Option Nat → Option Nat → Bool
  | some a, some b => b < a
  | _, _ => false

/-- JS `a < b` on possibly-undefined numbers: any comparison against
`undefined` is `false` (NaN semantics). -/
def jsLT : Option Nat → Option Nat → Bool
  | some a, some b => a < b
  | _, _ => false

/-- JS errors thrown by the builder and by compilation. -/
inductive JsErr where
  | typeError (msg : String)
  | rangeError (msg : String)
  | genericError (msg : String)
deriving DecidableEq, Repr

/-- The catalog's DIGIT rule: fixed pattern plus fixed default message. -/
def DIGIT : Entry := { pattern := some .digit, error := digitError }

/-- The catalog's SYMBOL rule. -/
def SYMBOL : Entry := { pattern := some .symbol, error := symbolError }

/-- The catalog's UPPERCASE rule. -/
def UPPERCASE : Entry := { pattern := some .uppercase, error := uppercaseError }

/-- The catalog's LOWERCASE rule. -/
def LOWERCASE : Entry := { pattern := some .lowercase, error := lowercaseError }

/-- The catalog's EMAIL rule. -/
def EMAIL : Entry := { pattern := some .email, error := emailError }

/-- Modelled from the spec: `getMinLengthRule(n)` returns a descriptor whose
pattern tests "string length ≥ n" with a default message interpolating `n`
(rules.js is not in the source tree); a RuleDescriptor is `{pattern, error}`,
so it carries no `value` field. -/
def getMinLengthRule (n : Nat) : Entry :=
  { pattern := some (.minLen n), error := minLenError n }

/-- Modelled from the spec: `getMaxLengthRule(n)` returns a descriptor whose
pattern tests "string length ≤ n" with a default message interpolating `n`
(rules.js is not in the source tree). -/
def getMaxLengthRule (n : Nat) : Entry :=
  { pattern := some (.maxLen n), error := maxLenError n }

/-- The builder state behind `Schema`: the private `#schema` object.
`rules` always starts from DEFAULT_RULES; label, required and
matchingProperty are absent until set. -/
structure SchemaState where
  rules : Rules
  label : Option String := none
  required : Option String := none
  matchingProperty : Option String := none
deriving DecidableEq, Repr

/-- `DEFAULT_RULES` from schema.js: minimum and maximum entries carrying the
sentinel `value` alongside the corresponding catalog length rule. -/
def DEFAULT_RULES : Rules :=
  [(RKind.minimum, { getMinLengthRule DEFAULT_MIN with value := some DEFAULT_MIN }),
   (RKind.maximum, { getMaxLengthRule DEFAULT_MAX with value := some DEFAULT_MAX })]

/-- `new Schema()`: rules start as a copy of DEFAULT_RULES. -/
def initState : SchemaState := { rules := DEFAULT_RULES }

/-- `Schema.min(value, customError)` as written in the source: it spreads
`Rules.getMaxLengthRule(value)` (not the min-length rule) into the minimum
slot, so the stored entry has a maximum-length pattern and no `value` field.
The bound is a `Nat`, so `validateLength` never throws here. -/
def Schema.min (value : Nat) (customError : Option String)
    (s : SchemaState) : SchemaState :=
  let e := getMaxLengthRule value
  let e := if truthy customError then { e with error := customError.getD "" } else e
  { s with rules := setRule s.rules .minimum e }

/-- `Schema.max(value, customError)`: spreads `Rules.getMaxLengthRule(value)`
into the maximum slot (again no `value` field). -/
def Schema.max (value : Nat) (customError : Option String)
    (s : SchemaState) : SchemaState :=
  let e := getMaxLengthRule value
  let e := if truthy customError then { e with error := customError.getD "" } else e
  { s with rules := setRule s.rules .maximum e }

/-- `get minimum`: returns `rules.minimum.value` (undefined when absent). -/
def Schema.minimumGet (s : SchemaState) : Option Nat :=
  (getRule s.rules .minimum).bind (·.value)

/-- `get maximum`: returns `rules.maximum.value` (undefined when absent). -/
def Schema.maximumGet (s : SchemaState) : Option Nat :=
  (getRule s.rules .maximum).bind (·.value)

/-- `Schema.hasDigit(customError)`: store a copy of the DIGIT rule, then
override its message when a truthy custom error is given. -/
def Schema.hasDigit (customError : Option String) (s : SchemaState) : SchemaState :=
  let e := if truthy customError then { DIGIT with error := customError.getD "" } else DIGIT
  { s with rules := setRule s.rules .digit e }

/-- `Schema.hasSymbol(customError)`. -/
def Schema.hasSymbol (customError : Option String) (s : SchemaState) : SchemaState :=
  let e := if truthy customError then { SYMBOL with error := customError.getD "" } else SYMBOL
  { s with rules := setRule s.rules .symbol e }

/-- `Schema.hasUppercase(customError)`. -/
def Schema.hasUppercase (customError : Option String) (s : SchemaState) : SchemaState :=
  let e := if truthy customError then { UPPERCASE with error := customError.getD "" } else UPPERCASE
  { s with rules := setRule s.rules .uppercase e }

/-- `Schema.hasLowercase(customError)` as written in the source: it stores the
LOWERCASE rule under `lowercase`, but the custom-error branch assigns
`this.#schema.rules.uppercase.error = customError` — targeting the uppercase
entry.  When the uppercase entry is absent, the assignment to a field of
`undefined` throws a TypeError. -/
def Schema.hasLowercase (customError : Option String)
    (s : SchemaState) : Except JsErr SchemaState :=
  let s1 := { s with rules := setRule s.rules .lowercase LOWERCASE }
  if truthy customError then
    match getRule s1.rules .uppercase with
    | some ue =>
      .ok { s1 with rules := setRule s1.rules .uppercase { ue with error := customError.getD "" } }
    | none => .error (.typeError "cannot set property of undefined")
  else
    .ok s1

/-- `Schema.isEmail(customError)`. -/
def Schema.isEmail (customError : Option String) (s : SchemaState) : SchemaState :=
  let e := if truthy customError then { EMAIL with error := customError.getD "" } else EMAIL
  { s with rules := setRule s.rules .email e }

/-- `Schema.isRequired(customError)`: `required` becomes the custom error when
truthy, the catalog's required message otherwise. -/
def Schema.isRequired (customError : Option String) (s : SchemaState) : SchemaState :=
  { s with required := some (if truthy customError then customError.getD "" else requiredError) }

/-- `Schema.label(name)`: `validateStringInput` rejects an empty name. -/
def Schema.labelSet (name : String) (s : SchemaState) : Except JsErr SchemaState :=
  if name = "" then .error (.genericError "Label cannot be empty")
  else .ok { s with label := some name }

/-- `Schema.matches(name, customError)`: records the matching property and
stores a rule holding only an error message (the custom error when given,
otherwise the catalog matches-rule message); no pattern field. -/
def Schema.matches (name : String) (customError : Option String)
    (s : SchemaState) : Except JsErr SchemaState :=
  if name = "" then .error (.genericError "Matching property cannot be empty")
  else
    let e : Entry :=
      if truthy customError then { error := customError.getD "" }
      else { error := matchesError name }
    .ok { s with matchingProperty := some name,
                 rules := setRule s.rules .matchingProperty e }

/-- The compiled schema returned by `validateSchema`. -/
structure Compiled where
  label : Option String := none
  required : Option String := none
  matchingProperty : Option String := none
  rules : List Entry
deriving DecidableEq, Repr

/-- `Schema.validateSchema()` from schema.js:
if `matchingProperty` is truthy, return only the match rule; else if an email
rule is present, return only it; else derive an unset minimum (value equal to
`SCHEMA.DEFAULT_MIN`) to the required-character count
(`Object.keys(rules).length - 2`), throw when `minimum.value > maximum.value`
or a bound is below that count (JS comparisons against an undefined `value`
are false), delete the length values, and return the rule entries in
insertion order.  Reading `minimum.value` off a missing entry would throw in
JS, modelled as a TypeError; builder-reachable states always carry both
length entries. -/
def Schema.validateSchema (s : SchemaState) : Except JsErr Compiled :=
  if truthy s.matchingProperty then
    .ok { label := s.label, required := s.required,
          matchingProperty := s.matchingProperty,
          rules := (getRule s.rules .matchingProperty).toList }
  else
    match getRule s.rules .email with
    | some e =>
      .ok { label := s.label, required := s.required, rules := [e] }
    | none =>
      match getRule s.rules .minimum, getRule s.rules .maximum with
      | some me, some mxe =>
        let requiredChars := s.rules.length - 2
        let derive := me.value = some DEFAULT_MIN
        let rules1 :=
          if derive then
            modifyRule s.rules .minimum (fun e =>
              { e with value := some requiredChars,
                       error := (getMinLengthRule requiredChars).error,
                       pattern := (getMinLengthRule requiredChars).pattern })
          else s.rules
        let minValue := if derive then some requiredChars else me.value
        if jsGT minValue mxe.value then
          .error (.genericError INVALID_MIN_OVER_MAX)
        else if jsLT mxe.value (some requiredChars) || jsLT minValue (some requiredChars) then
          .error (.genericError INVALID_MIN_MAX)
        else
          let rules2 := modifyRule rules1 .minimum (fun e => { e with value := none })
          let rules3 := modifyRule rules2 .maximum (fun e => { e with value := none })
          .ok { label := s.label, required := s.required,
                matchingProperty := s.matchingProperty,
                rules := rules3.map (·.2) }
      | _, _ => .error (.typeError "cannot read property of undefined")

/-- Result of single-value validation. -/
structure ValidationResult where
  isValid : Bool
  errors : List String
deriving DecidableEq, Repr

/-- A compiled rule entry's test on a value; entries without a pattern (the
match rule, which single-value mode never receives from the builder) pass. -/
def Entry.test (e : Entry) (v : String) : Bool :=
  match e.pattern with
  | some p => p.test v
  | none => true

/-- Modelled from the spec: single-value `validate(value, schema)`
(validation.js is not in the source tree).  "If required is set and input is
empty, short-circuit: fail with only the required message.  Otherwise,
evaluate every rule in the compiled rule list against input in list order;
collect every failing rule's message (no short-circuit across rules)." -/
def validate (value : String) (c : Compiled) : ValidationResult :=
  if truthy c.required && value = "" then
    { isValid := false, errors := [c.required.getD ""] }
  else
    let errs := (c.rules.filter (fun e => !e.test value)).map (·.error)
    { isValid := errs.isEmpty, errors := errs }

end JsValidation

namespace JsValidation.Lib

/-- A JS value returned by the uppercase validator: `true` or a message. -/
inductive JsResult where
  | bool (b : Bool)
  | str (s : String)
deriving DecidableEq, Repr

/-- The module-level `pattern = /[A-Z]/` of lib/uppercase.js: presence of a
character between 'A' and 'Z'. -/
def upPattern (v : String) : Bool :=
  v.data.any (fun c => 'A' ≤ c && c ≤ 'Z')

/-- The default export of lib/uppercase.js, a factory named `lowercase`:
given an error message it returns the validator `uppercase`, which returns
`pattern.test(value) || errorMessage` — the boolean `true` on a match,
the message itself otherwise. -/
def lowercase (errorMessage : String) (value : String) : JsResult :=
  if upPattern value then .bool true else .str errorMessage

end JsValidation.Lib

namespace JsValidation

/-! Helper lemmas about the rules association list. -/

theorem getRule_eq_none_of_forall {cs : Rules} {k : RKind}
    (h : ∀ p ∈ cs, p.1 ≠ k) : getRule cs k = none := by
  induction cs with
  | nil => rfl
  | cons p rest ih =>
    obtain ⟨k', e⟩ := p
    have hk : k' ≠ k := h (k', e) (List.mem_cons_self _ _)
    simp only [getRule, if_neg hk]
    exact ih fun q hq => h q (List.mem_cons_of_mem _ hq)

theorem getRule_mem {cs : Rules} {k : RKind} {e : Entry}
    (h : getRule cs k = some e) : (k, e) ∈ cs := by
  induction cs with
  | nil => simp [getRule] at h
  | cons p rest ih =>
    obtain ⟨k', e'⟩ := p
    by_cases hk : k' = k
    · subst hk
      have he : some e' = some e := by simpa [getRule] using h
      obtain rfl := Option.some.inj he
      exact List.mem_cons_self _ _
    · simp only [getRule, if_neg hk] at h
      exact List.mem_cons_of_mem _ (ih h)

theorem modifyRule_eq_self {cs : Rules} {k : RKind} {f : Entry → Entry}
    (h : ∀ p ∈ cs, p.1 ≠ k) : modifyRule cs k f = cs := by
  induction cs with
  | nil => rfl
  | cons p rest ih =>
    obtain ⟨k', e⟩ := p
    have hk : k' ≠ k := h (k', e) (List.mem_cons_self _ _)
    simp only [modifyRule, List.map_cons, if_neg hk]
    have := ih fun q hq => h q (List.mem_cons_of_mem _ hq)
    simp only [modifyRule] at this
    rw [this]

theorem mem_modifyRule {cs : Rules} {k : RKind} {f : Entry → Entry}
    {x : RKind × Entry} (hx : x ∈ modifyRule cs k f) :
    x ∈ cs ∨ ∃ e, (k, e) ∈ cs ∧ x = (k, f e) := by
  induction cs with
  | nil => simp [modifyRule] at hx
  | cons p rest ih =>
    simp only [modifyRule, List.map_cons, List.mem_cons] at hx
    rcases hx with hx | hx
    · by_cases hk : p.1 = k
      · have hp : (k, p.2) = p := by rw [← hk]
        exact Or.inr ⟨p.2, hp ▸ List.mem_cons_self p rest, by simpa [hk] using hx⟩
      · left
        simp only [if_neg hk] at hx
        exact hx ▸ List.mem_cons_self _ _
    · rcases ih hx with h | ⟨e, he, hxe⟩
      · exact Or.inl (List.mem_cons_of_mem _ h)
      · exact Or.inr ⟨e, List.mem_cons_of_mem _ he, hxe⟩

/-- `required` survives compilation unchanged in every branch. -/
theorem validateSchema_required {s : SchemaState} {c : Compiled}
    (h : Schema.validateSchema s = .ok c) : c.required = s.required := by
  unfold Schema.validateSchema at h
  dsimp only at h
  repeat' split at h
  all_goals first | exact (Except.ok.inj h) ▸ rfl | simp at h

end JsValidation

namespace JsValidation

/-- The builder state of the spec's example
`Schema().min(5).max(7).hasDigit().hasSymbol()`. -/
def exampleState : SchemaState :=
  Schema.hasSymbol none (Schema.hasDigit none (Schema.max 7 none (Schema.min 5 none initState)))

/-- Claim C1: the claim says `min(n)` installs a minimum rule whose pattern
tests "string length ≥ n", and that compiling
`Schema().min(5).max(7).hasDigit().hasSymbol()` and validating `"ab1$"`
yields invalid with a minimum-length message.  The code instead spreads
`Rules.getMaxLengthRule(5)` into the minimum slot, so the stored rule has a
maximum-length pattern (length ≤ 5) and the length-4 string `"ab1$"`
validates as valid with no errors. -/
theorem C1_min_installs_max_rule :
    getRule exampleState.rules .minimum
      = some { value := none, pattern := some (.maxLen 5), error := maxLenError 5 }
    ∧ (Schema.validateSchema exampleState).map (validate "ab1$")
      = .ok { isValid := true, errors := [] } := by
  constructor <;> rfl

/-- Claim C2: the claim says compilation fails iff the minimum bound exceeds
the maximum or a bound is below the enabled character-class count.  The code
never fails for explicitly set bounds: `min`/`max` store entries without a
`value` field, so every bound comparison in `validateSchema` is against
`undefined` and is false.  `Schema().min(5).max(3)` (5 > 3) and
`Schema().min(1).max(1).hasDigit().hasSymbol()` (bound 1 < 2 enabled classes)
both compile successfully, contradicting the claim. -/
theorem C2_bound_checks_never_fire :
    Schema.validateSchema (Schema.max 3 none (Schema.min 5 none initState))
      = .ok { label := none, required := none, matchingProperty := none,
              rules := [getMaxLengthRule 5, getMaxLengthRule 3] }
    ∧ Schema.validateSchema
        (Schema.hasSymbol none (Schema.hasDigit none
          (Schema.max 1 none (Schema.min 1 none initState))))
      = .ok { label := none, required := none, matchingProperty := none,
              rules := [getMaxLengthRule 1, getMaxLengthRule 1, DIGIT, SYMBOL] } := by
  constructor <;> rfl

/-- Claim C4: the claim says `hasLowercase(e)` overrides the lowercase rule's
message with `e` and leaves the uppercase rule's message unchanged.  The code
assigns `this.#schema.rules.uppercase.error = customError` instead: after
`Schema().hasUppercase().hasLowercase("custom")`, the lowercase rule keeps
its default message and the uppercase rule's message becomes `"custom"`
(and without a prior uppercase rule the call throws a TypeError). -/
theorem C4_lowercase_overrides_uppercase :
    (Schema.hasLowercase (some "custom") (Schema.hasUppercase none initState)).map
        (fun s => (getRule s.rules .lowercase, getRule s.rules .uppercase))
      = .ok (some LOWERCASE, some { UPPERCASE with error := "custom" })
    ∧ (Schema.hasLowercase (some "custom") initState)
      = .error (.typeError "cannot set property of undefined") := by
  constructor <;> rfl

/-- Claim C5: the claim says the `minimum`/`maximum` getters return `n` after
`min(n)`/`max(n)`.  The code's `min`/`max` store rule entries without a
`value` field (they spread `getMaxLengthRule`, a plain pattern/error
descriptor), so both getters return `undefined` after an explicit bound is
set — `new Schema().min(4).minimum` is `undefined`, not 4. -/
theorem C5_getters_return_undefined :
    Schema.minimumGet (Schema.min 4 none initState) = none
    ∧ Schema.maximumGet (Schema.max 7 none initState) = none := by
  constructor <;> rfl

end JsValidation

namespace JsValidation.Lib

/-- Claim C10: the validator produced by the default export of
lib/uppercase.js (a factory named `lowercase`) returns the boolean `true`
when the value contains at least one character in A–Z, and otherwise returns
the error message itself (a string, not `false`); it never throws (it is a
total function). -/
theorem C10_uppercase_validator_result (m v : String) :
    ((∃ c ∈ v.data, 'A' ≤ c ∧ c ≤ 'Z') → lowercase m v = .bool true)
    ∧ ((∀ c ∈ v.data, ¬('A' ≤ c ∧ c ≤ 'Z')) → lowercase m v = .str m) := by
  constructor
  · intro h
    obtain ⟨c, hc, h1, h2⟩ := h
    have : upPattern v = true := by
      unfold upPattern
      exact List.any_eq_true.mpr ⟨c, hc, by simp [h1, h2]⟩
    simp [lowercase, this]
  · intro h
    have : upPattern v = false := by
      unfold upPattern
      simp only [List.any_eq_false]
      intro c hc
      have := h c hc
      simp only [Bool.and_eq_true, decide_eq_true_eq]
      tauto
    simp [lowercase, this]

/-- Witness for C10 at concrete inputs: `"ok"` has no uppercase character,
so the validator returns the message; conversely checked by evaluation. -/
theorem C10_uppercase_validator_result_witness :
    lowercase "need an uppercase character" "ok" = .str "need an uppercase character" :=
  (C10_uppercase_validator_result "need an uppercase character" "ok").2 (by decide)

end JsValidation.Lib

namespace JsValidation

/-- Claim C3: for every builder state on which `isRequired()` was called
(`required` holds a nonempty message, as every `isRequired` call stores one)
and whose compilation succeeds, validating the empty string fails with
exactly the required message as the only error; every other configured rule
is short-circuited. -/
theorem C3_required_empty_short_circuits (s : SchemaState) (m : String) (c : Compiled)
    (hreq : s.required = some m) (hm : m ≠ "")
    (hc : Schema.validateSchema s = .ok c) :
    validate "" c = { isValid := false, errors := [m] } := by
  have h := validateSchema_required hc
  rw [hreq] at h
  simp [validate, h, truthy, hm]

/-- Witness for C3: `Schema().min(5).hasDigit().isRequired()` compiled, then
validated with the empty string, fails with only the required message. -/
theorem C3_required_empty_short_circuits_witness :
    validate ""
      { label := none, required := some requiredError, matchingProperty := none,
        rules := [getMaxLengthRule 5, getMaxLengthRule DEFAULT_MAX, DIGIT] }
      = { isValid := false, errors := [requiredError] } :=
  C3_required_empty_short_circuits
    (Schema.isRequired none (Schema.hasDigit none (Schema.min 5 none initState)))
    requiredError
    { label := none, required := some requiredError, matchingProperty := none,
      rules := [getMaxLengthRule 5, getMaxLengthRule DEFAULT_MAX, DIGIT] }
    rfl (by decide) rfl

/-- Claim C6: for every builder state on which `matches(p)` was called
(`matchingProperty` holds the nonempty name `p` and a match rule is stored),
compilation returns an object whose rules array contains exactly one entry —
the stored match rule — regardless of any other configured rules, and
label, required and matchingProperty are preserved. -/
theorem C6_matches_rule_is_exclusive (s : SchemaState) (p : String) (e : Entry)
    (hmp : s.matchingProperty = some p) (hp : p ≠ "")
    (he : getRule s.rules .matchingProperty = some e) :
    Schema.validateSchema s
      = .ok { label := s.label, required := s.required,
              matchingProperty := some p, rules := [e] } := by
  unfold Schema.validateSchema
  have ht : truthy s.matchingProperty = true := by simp [truthy, hmp, hp]
  rw [if_pos ht, hmp, he]
  rfl

/-- Witness for C6: a schema with length, digit and email rules configured on
which `matches("password")` was also called compiles to the match rule
alone. -/
theorem C6_matches_rule_is_exclusive_witness :
    Schema.validateSchema
      { rules := [(RKind.minimum, getMaxLengthRule 5),
                  (RKind.maximum, { getMaxLengthRule DEFAULT_MAX with value := some DEFAULT_MAX }),
                  (RKind.digit, DIGIT),
                  (RKind.email, EMAIL),
                  (RKind.matchingProperty, { error := matchesError "password" })],
        label := none, required := some requiredError,
        matchingProperty := some "password" }
      = .ok { label := none, required := some requiredError,
              matchingProperty := some "password",
              rules := [{ error := matchesError "password" }] } :=
  C6_matches_rule_is_exclusive
    { rules := [(RKind.minimum, getMaxLengthRule 5),
                (RKind.maximum, { getMaxLengthRule DEFAULT_MAX with value := some DEFAULT_MAX }),
                (RKind.digit, DIGIT),
                (RKind.email, EMAIL),
                (RKind.matchingProperty, { error := matchesError "password" })],
      label := none, required := some requiredError,
      matchingProperty := some "password" }
    "password" { error := matchesError "password" } rfl (by decide) rfl

/-- Claim C7: for every builder state on which `isEmail()` was called (an
email rule entry is stored) and `matches()` was not (`matchingProperty` is
not truthy), compilation returns an object whose rules array contains only
the email rule; configured length and character-class rules are absent, and
the required message and label are preserved. -/
theorem C7_email_rule_is_exclusive (s : SchemaState) (e : Entry)
    (hmp : truthy s.matchingProperty = false)
    (he : getRule s.rules .email = some e) :
    Schema.validateSchema s
      = .ok { label := s.label, required := s.required,
              matchingProperty := none, rules := [e] } := by
  unfold Schema.validateSchema
  rw [if_neg (by simp [hmp]), he]

/-- Witness for C7: a schema with length and digit rules configured on which
`isEmail()` was also called compiles to the email rule alone. -/
theorem C7_email_rule_is_exclusive_witness :
    Schema.validateSchema
      (Schema.isEmail none (Schema.hasDigit none (Schema.min 5 none
        (Schema.isRequired none initState))))
      = .ok { label := none, required := some requiredError,
              matchingProperty := none, rules := [EMAIL] } :=
  C7_email_rule_is_exclusive
    (Schema.isEmail none (Schema.hasDigit none (Schema.min 5 none
      (Schema.isRequired none initState))))
    EMAIL rfl rfl

end JsValidation

namespace JsValidation

theorem getRule_cons (k' : RKind) (e : Entry) (rest : Rules) (k : RKind) :
    getRule ((k', e) :: rest) k = if k' = k then some e else getRule rest k := rfl

theorem modifyRule_cons (p : RKind × Entry) (rest : Rules) (k : RKind) (f : Entry → Entry) :
    modifyRule (p :: rest) k f
      = (if p.1 = k then (p.1, f p.2) else p) :: modifyRule rest k f := rfl

theorem pattern_preserved_modifyRule {rs : Rules} {k : RKind} {f : Entry → Entry}
    (hf : ∀ e, e.pattern.isSome = true → (f e).pattern.isSome = true)
    (h : ∀ p ∈ rs, p.2.pattern.isSome = true) :
    ∀ p ∈ modifyRule rs k f, p.2.pattern.isSome = true := by
  intro p hp
  rcases mem_modifyRule hp with h1 | ⟨e, he, rfl⟩
  · exact h p h1
  · exact hf e (h (k, e) he)

/-- Claim C8: for every builder state in which the minimum is still the
sentinel default (`min()` never called), neither an email rule nor a
matching property is set, and the maximum is either still the sentinel
default or was explicitly set (in which case its `value` field is absent),
compilation succeeds, replacing the sentinel minimum by the count of
attached character-class rules and installing the corresponding min-length
pattern and message as the first compiled rule. -/
theorem C8_unset_minimum_derived (me mxe : Entry) (cs : List (RKind × Entry))
    (lab req mp : Option String)
    (hme : me.value = some DEFAULT_MIN)
    (hmx : mxe.value = none ∨ mxe.value = some DEFAULT_MAX)
    (hmp : truthy mp = false)
    (hcs : ∀ p ∈ cs, p.1 = RKind.digit ∨ p.1 = RKind.symbol ∨
           p.1 = RKind.uppercase ∨ p.1 = RKind.lowercase)
    (hnd : (cs.map Prod.fst).Nodup) :
    Schema.validateSchema
      { rules := (RKind.minimum, me) :: (RKind.maximum, mxe) :: cs,
        label := lab, required := req, matchingProperty := mp }
      = .ok { label := lab, required := req, matchingProperty := mp,
              rules := { value := none, pattern := some (.minLen cs.length),
                         error := minLenError cs.length }
                       :: { mxe with value := none } :: cs.map (·.2) } := by
  have hne : ∀ p ∈ cs, p.1 ≠ RKind.email := by
    intro p hp; rcases hcs p hp with h|h|h|h <;> simp [h]
  have hnm : ∀ p ∈ cs, p.1 ≠ RKind.minimum := by
    intro p hp; rcases hcs p hp with h|h|h|h <;> simp [h]
  have hnx : ∀ p ∈ cs, p.1 ≠ RKind.maximum := by
    intro p hp; rcases hcs p hp with h|h|h|h <;> simp [h]
  have h8 : cs.length ≤ 8 := by
    have hcard : Fintype.card RKind = 8 := by decide
    have := hnd.length_le_card
    rw [List.length_map, hcard] at this
    exact this
  have hcse : getRule cs RKind.email = none := getRule_eq_none_of_forall hne
  have hgt : jsGT (some cs.length) mxe.value = false := by
    rcases hmx with h|h
    · simp [jsGT, h]
    · simp only [jsGT, h, DEFAULT_MAX]
      simp only [decide_eq_false_iff_not]
      omega
  have hlt1 : jsLT mxe.value (some cs.length) = false := by
    rcases hmx with h|h
    · simp [jsLT, h]
    · simp only [jsLT, h, DEFAULT_MAX]
      simp only [decide_eq_false_iff_not]
      omega
  have hlt2 : jsLT (some cs.length) (some cs.length) = false := by
    simp [jsLT]
  have harith : cs.length + 1 + 1 - 2 = cs.length := by omega
  simp [Schema.validateSchema, hmp, hcse, hme, hgt, hlt1, hlt2, harith,
    modifyRule_cons, modifyRule_eq_self hnm, modifyRule_eq_self hnx,
    getRule_cons, getMinLengthRule]

/-- Witness for C8: a builder state with digit and symbol rules attached and
both bounds untouched compiles with a derived minimum of 2. -/
theorem C8_unset_minimum_derived_witness :
    Schema.validateSchema
      { rules := [(RKind.minimum, { getMinLengthRule DEFAULT_MIN with value := some DEFAULT_MIN }),
                  (RKind.maximum, { getMaxLengthRule DEFAULT_MAX with value := some DEFAULT_MAX }),
                  (RKind.digit, DIGIT), (RKind.symbol, SYMBOL)],
        label := none, required := none, matchingProperty := none }
      = .ok { label := none, required := none, matchingProperty := none,
              rules := [{ value := none, pattern := some (.minLen 2), error := minLenError 2 },
                        { value := none, pattern := some (.maxLen DEFAULT_MAX),
                          error := maxLenError DEFAULT_MAX },
                        DIGIT, SYMBOL] } :=
  C8_unset_minimum_derived
    { getMinLengthRule DEFAULT_MIN with value := some DEFAULT_MIN }
    { getMaxLengthRule DEFAULT_MAX with value := some DEFAULT_MAX }
    [(RKind.digit, DIGIT), (RKind.symbol, SYMBOL)] none none none
    rfl (Or.inr rfl) rfl (by decide) (by decide)

/-- Claim C9, counterexample: the claim says every element of a successfully
compiled rules array carries both a pattern and an error message, in
particular the single rule compiled from `matches(p)`.  The code builds the
match rule as `{ error }` only: compiling `Schema().matches("password")`
yields a rules array whose single element has no pattern field. -/
theorem C9_match_rule_lacks_pattern :
    (Schema.matches "password" none initState).map Schema.validateSchema
      = .ok (.ok { label := none, required := none,
                   matchingProperty := some "password",
                   rules := [{ value := none, pattern := none,
                               error := matchesError "password" }] })
    ∧ (Schema.matches "password" none initState).map
        (fun s => (Schema.validateSchema s).map
          (fun c => c.rules.all (fun e => e.pattern.isSome)))
      = .ok (.ok false) := by
  constructor <;> rfl

/-- Claim C9 as amended: every element of the rules array returned by a
successful compilation of a schema without a matching property carries both
a pattern and an error message (the error field is always present by
construction); the single rule compiled from a `matches(p)` schema carries
an error message but no pattern. -/
theorem C9_compiled_rules_have_patterns (s : SchemaState) (c : Compiled)
    (hmp : truthy s.matchingProperty = false)
    (hpat : ∀ p ∈ s.rules, p.2.pattern.isSome = true)
    (hc : Schema.validateSchema s = .ok c) :
    c.rules.all (fun e => e.pattern.isSome) = true := by
  unfold Schema.validateSchema at hc
  rw [if_neg (by simp [hmp])] at hc
  cases hemail : getRule s.rules RKind.email with
  | some e =>
    rw [hemail] at hc
    dsimp only at hc
    have h := Except.ok.inj hc
    subst h
    simp [List.all_eq_true]
    exact hpat _ (getRule_mem hemail)
  | none =>
    rw [hemail] at hc
    cases hmin : getRule s.rules RKind.minimum with
    | none =>
      rw [hmin] at hc
      cases hmax2 : getRule s.rules RKind.maximum with
      | none => rw [hmax2] at hc; simp at hc
      | some mxe => rw [hmax2] at hc; simp at hc
    | some me =>
      rw [hmin] at hc
      cases hmax2 : getRule s.rules RKind.maximum with
      | none => rw [hmax2] at hc; simp at hc
      | some mxe =>
        rw [hmax2] at hc
        dsimp only at hc
        by_cases hder : me.value = some DEFAULT_MIN
        · simp only [if_pos hder] at hc
          split at hc
          · simp at hc
          · split at hc
            · simp at hc
            · have h := Except.ok.inj hc
              subst h
              simp only [List.all_eq_true]
              intro x hx
              obtain ⟨p, hp, hpx⟩ := List.mem_map.mp hx
              subst hpx
              refine pattern_preserved_modifyRule ?_
                (pattern_preserved_modifyRule ?_
                  (pattern_preserved_modifyRule ?_ hpat)) p hp
              · intro e h; exact h
              · intro e h; exact h
              · intro e h; rfl
        · simp only [if_neg hder] at hc
          split at hc
          · simp at hc
          · split at hc
            · simp at hc
            · have h := Except.ok.inj hc
              subst h
              simp only [List.all_eq_true]
              intro x hx
              obtain ⟨p, hp, hpx⟩ := List.mem_map.mp hx
              subst hpx
              refine pattern_preserved_modifyRule ?_
                (pattern_preserved_modifyRule ?_ hpat) p hp
              · intro e h; exact h
              · intro e h; exact h

/-- Witness for the amended C9: `Schema().hasDigit()` compiles to a rules
array whose every element carries a pattern. -/
theorem C9_compiled_rules_have_patterns_witness :
    ({ label := none, required := none, matchingProperty := none,
       rules := [{ value := none, pattern := some (.minLen 1), error := minLenError 1 },
                 { value := none, pattern := some (.maxLen DEFAULT_MAX),
                   error := maxLenError DEFAULT_MAX },
                 DIGIT] } : Compiled).rules.all (fun e => e.pattern.isSome) = true :=
  C9_compiled_rules_have_patterns (Schema.hasDigit none initState) _ rfl (by decide) rfl

end JsValidation
